import Mathlib

/-!
# Shallow embedding of the sourceli-backend allocation & performance core

This file embeds, in Lean 4, the core of the order-fulfilment pipeline of the
`sourceli-backend` repository:

* `src/src/services/allocation.service.ts` — `createDeliveryAssignments`,
  `updateAssignment`, `deleteAssignment`, `confirmDelivery`;
* `src/src/services/performance.service.ts` — `calculatePerformanceScore`
  and its four component scores, `determineTier`, `updatePerformanceScore`.

Database rows become Lean structures, the database itself an explicit state
record, and every fallible service function an `Except ApiError` computation
that returns the updated state on success.  Errors abort the whole request
(the TypeScript code throws before performing any write, and multi-row writes
run in a single transaction), so an `Except.error` result means the state is
unchanged.  JavaScript numbers are modelled as `ℚ` (quantities, scores before
rounding) and timestamps as `ℤ` milliseconds since the epoch; `Math.round` and
`Math.floor` are modelled exactly on those types.
-/

/-- `AssignmentStatus` enum from the Prisma schema. -/
inductive AssignmentStatus
  | PENDING
  | DELIVERED
  | FAILED
  deriving DecidableEq, Repr

/-- `OrderStatus` enum from the Prisma schema. -/
inductive OrderStatus
  | PENDING
  | APPROVED
  | ALLOCATION
  | DELIVERED
  | REJECTED
  | FAILED
  deriving DecidableEq, Repr

/-- `QualityResult` enum from the Prisma schema. -/
inductive QualityResult
  | PASS
  | PARTIAL
  | FAIL
  deriving DecidableEq, Repr

/-- `PerformanceTier` enum from the Prisma schema. -/
inductive PerformanceTier
  | PROBATIONARY
  | STANDARD
  | PREFERRED
  deriving DecidableEq, Repr

instance : BEq AssignmentStatus := ⟨fun a b => decide (a = b)⟩
instance : LawfulBEq AssignmentStatus := ⟨by intro a b h; exact of_decide_eq_true h, by intro a; simp [BEq.beq]⟩
instance : BEq OrderStatus := ⟨fun a b => decide (a = b)⟩
instance : LawfulBEq OrderStatus := ⟨by intro a b h; exact of_decide_eq_true h, by intro a; simp [BEq.beq]⟩

/-- An `Order` row (the fields the allocation core reads). -/
structure Order where
  id : ℕ
  quantity : ℚ
  status : OrderStatus
  deliveryDate : ℤ
  deliveryAddressId : ℕ
  deriving DecidableEq, Repr

/-- A `DeliveryAssignment` row. -/
structure DeliveryAssignment where
  id : ℕ
  orderId : ℕ
  farmerId : ℕ
  assignedQuantity : ℚ
  deliveryDate : ℤ
  deliveryAddressId : ℕ
  status : AssignmentStatus
  quantityDelivered : Option ℚ
  qualityResult : Option QualityResult
  confirmationNotes : Option String
  confirmedBy : Option ℕ
  confirmedAt : Option ℤ
  deriving DecidableEq, Repr

/-- A `WeeklyAvailability` row (the fields performance scoring reads). -/
structure WeeklyAvailability where
  weekStartDate : ℤ
  isLate : Bool
  deriving DecidableEq, Repr

/-- The error value produced by `createError(message, statusCode, code)` in
`src/src/middleware/errorHandler.ts`. -/
structure ApiError where
  message : String
  statusCode : ℕ
  code : String
  deriving DecidableEq, Repr

/-- `createError` from `errorHandler.ts`. -/
def createError (message : String) (statusCode : ℕ) (code : String) : ApiError :=
  ⟨message, statusCode, code⟩

/-- The slice of the database the allocation service touches: the `Order` and
`DeliveryAssignment` tables, the set of farmers whose account status is ACTIVE
or PROBATIONARY (the only farmer fact the service checks), and a counter
supplying fresh assignment ids. -/
structure AllocState where
  orders : List Order
  assignments : List DeliveryAssignment
  activeFarmers : List ℕ
  nextId : ℕ
  deriving Repr

/-- The assignments of one order (`prisma.deliveryAssignment` filtered by
`orderId`; the `assignments` relation included on an order). -/
def assignmentsOfOrder (s : AllocState) (orderId : ℕ) : List DeliveryAssignment :=
  s.assignments.filter (fun a => a.orderId == orderId)

/-- `prisma.order.findUnique({ where: { id } })`. -/
def findOrder (s : AllocState) (orderId : ℕ) : Option Order :=
  s.orders.find? (fun o => o.id == orderId)

/-- `prisma.deliveryAssignment.findUnique({ where: { id } })`. -/
def findAssignment (s : AllocState) (assignmentId : ℕ) : Option DeliveryAssignment :=
  s.assignments.find? (fun a => a.id == assignmentId)

/-- Status of the order with the given id, `none` when no such row exists. -/
def orderStatusOf (s : AllocState) (orderId : ℕ) : Option OrderStatus :=
  (findOrder s orderId).map (fun o => o.status)

/-- One row of the input batch of `createDeliveryAssignments`
(`AllocationAssignment` in `allocation.service.ts`). -/
structure AllocationAssignment where
  farmerId : ℕ
  assignedQuantity : ℚ
  deriving DecidableEq, Repr

/-- Successful result of `createDeliveryAssignments`. -/
structure CreateAllocationResult where
  state : AllocState
  created : List DeliveryAssignment
  totalAssigned : ℚ
  remainingQuantity : ℚ

/-- One `prisma.deliveryAssignment.create` row of the allocation batch
(lines 215–223): quantity and farmer from the input row, delivery date and
address copied from the order, status PENDING, confirmation fields empty.
The row id is fresh (base id plus the row's index in the batch). -/
def mkAssignmentRow (order : Order) (baseId : ℕ)
    (p : ℕ × AllocationAssignment) : DeliveryAssignment :=
  { id := baseId + p.1
    orderId := order.id
    farmerId := p.2.farmerId
    assignedQuantity := p.2.assignedQuantity
    deliveryDate := order.deliveryDate
    deliveryAddressId := order.deliveryAddressId
    status := AssignmentStatus.PENDING
    quantityDelivered := none
    qualityResult := none
    confirmationNotes := none
    confirmedBy := none
    confirmedAt := none }

/-- `createDeliveryAssignments(orderId, adminId, data)` from
`allocation.service.ts` (lines 120–247).  Checks, in source order: order
exists; `order.status == ALLOCATION`; the order has no existing assignments;
`Σ assignedQuantity ≤ order.quantity`; `Σ assignedQuantity > 0`; every
referenced farmer is found among the active farmers (Prisma's `id: { in: … }`
returns one row per *distinct* id, so a batch with a repeated farmerId also
fails this check).  On success one PENDING assignment per input row is created
in a single transaction, copying `deliveryDate` and `deliveryAddressId` from
the order. -/
def createDeliveryAssignments (orderId : ℕ) (_adminId : ℕ)
    (data : List AllocationAssignment) (s : AllocState) :
    Except ApiError CreateAllocationResult :=
  match findOrder s orderId with
  | none => .error (createError "Order not found" 404 "ORDER_NOT_FOUND")
  | some order =>
    if order.status ≠ OrderStatus.ALLOCATION then
      .error (createError "Order is not in ALLOCATION status" 400 "INVALID_ORDER_STATUS")
    else if (assignmentsOfOrder s order.id).length > 0 then
      .error (createError "Order already has assignments. Use update endpoint to modify."
        400 "ALREADY_ALLOCATED")
    else
      let totalAssigned : ℚ := (data.map (fun a => a.assignedQuantity)).sum
      if totalAssigned > order.quantity then
        .error (createError "Total assigned quantity exceeds order quantity"
          400 "OVER_ALLOCATION")
      else if totalAssigned ≤ 0 then
        .error (createError "Total assigned quantity must be greater than 0"
          400 "INVALID_QUANTITY")
      else
        let farmerIds := data.map (fun a => a.farmerId)
        let found := farmerIds.dedup.filter (fun fid => fid ∈ s.activeFarmers)
        if found.length ≠ farmerIds.length then
          .error (createError "Some farmers not found or not active" 404 "FARMER_NOT_FOUND")
        else
          let created := ((List.range data.length).zip data).map
            (mkAssignmentRow order s.nextId)
          .ok { state := { s with
                  assignments := s.assignments ++ created
                  nextId := s.nextId + data.length }
                created := created
                totalAssigned := totalAssigned
                remainingQuantity := order.quantity - totalAssigned }

/-- `updateAssignment(assignmentId, adminId, assignedQuantity)` from
`allocation.service.ts` (lines 252–332).  Checks, in source order: the
assignment exists; its status is PENDING; the new quantity is > 0; the new
quantity plus the summed quantities of the order's *other* assignments does
not exceed `order.quantity`.  On success only the `assignedQuantity` field is
rewritten.  The included `order` relation is backed by a foreign key, so a
missing parent order cannot occur in the database; the model maps it to an
internal error. -/
def updateAssignment (assignmentId : ℕ) (_adminId : ℕ) (assignedQuantity : ℚ)
    (s : AllocState) : Except ApiError (AllocState × DeliveryAssignment) :=
  match findAssignment s assignmentId with
  | none => .error (createError "Assignment not found" 404 "ASSIGNMENT_NOT_FOUND")
  | some assignment =>
    if assignment.status ≠ AssignmentStatus.PENDING then
      .error (createError "Cannot update assignment with this status"
        400 "INVALID_ASSIGNMENT_STATUS")
    else if assignedQuantity ≤ 0 then
      .error (createError "Assigned quantity must be greater than 0"
        400 "INVALID_QUANTITY")
    else
      match findOrder s assignment.orderId with
      | none => .error (createError "Relation integrity violated" 500 "INTERNAL")
      | some order =>
        let others := s.assignments.filter
          (fun a => a.orderId == assignment.orderId && a.id != assignmentId)
        let totalOtherAssignments : ℚ := (others.map (fun a => a.assignedQuantity)).sum
        let newTotal := totalOtherAssignments + assignedQuantity
        if newTotal > order.quantity then
          .error (createError "Total assigned quantity would exceed order quantity"
            400 "OVER_ALLOCATION")
        else
          let updated := { assignment with assignedQuantity := assignedQuantity }
          let newAssignments := s.assignments.map
            (fun a => if a.id == assignmentId then updated else a)
          .ok ({ s with assignments := newAssignments }, updated)

/-- `deleteAssignment(assignmentId, adminId)` from `allocation.service.ts`
(lines 337–360): the assignment must exist and still be PENDING; then the row
is deleted. -/
def deleteAssignment (assignmentId : ℕ) (_adminId : ℕ) (s : AllocState) :
    Except ApiError AllocState :=
  match findAssignment s assignmentId with
  | none => .error (createError "Assignment not found" 404 "ASSIGNMENT_NOT_FOUND")
  | some assignment =>
    if assignment.status ≠ AssignmentStatus.PENDING then
      .error (createError "Cannot delete assignment with this status"
        400 "INVALID_ASSIGNMENT_STATUS")
    else
      .ok { s with assignments := s.assignments.filter (fun a => a.id != assignmentId) }

/-- Input payload of `confirmDelivery` (`ConfirmDeliveryData`). -/
structure ConfirmDeliveryData where
  delivered : Bool
  quantityDelivered : Option ℚ
  qualityResult : Option QualityResult
  notes : Option String
  deriving DecidableEq, Repr

/-- The write phase of `confirmDelivery` (lines 421–477 of
`allocation.service.ts`), after validation has passed: build the updated
assignment, rewrite its row, then roll the order status up.  The roll-up
re-reads the order's assignments *after* the update (the `include` on the
Prisma `update`), marks the order DELIVERED when all assignments are
DELIVERED (and there is at least one), or when some assignment FAILED and
every assignment is DELIVERED or FAILED. -/
def confirmUpdatedRow (a : DeliveryAssignment) (adminId : ℕ) (data : ConfirmDeliveryData)
    (now : ℤ) : DeliveryAssignment :=
  { a with
    status := if data.delivered then AssignmentStatus.DELIVERED else AssignmentStatus.FAILED
    quantityDelivered :=
      match data.quantityDelivered with
      | some q => some q
      | none => if data.delivered then some a.assignedQuantity else none
    qualityResult := data.qualityResult
    confirmationNotes := data.notes
    confirmedBy := some adminId
    confirmedAt := some now }

/-- The assignment table after the `prisma.deliveryAssignment.update` call:
the row with the confirmed assignment's id is replaced by the updated row. -/
def confirmNewAssignments (a upd : DeliveryAssignment) (s : AllocState) :
    List DeliveryAssignment :=
  s.assignments.map (fun x => if x.id == a.id then upd else x)

/-- The roll-up condition of lines 454–477: all assignments DELIVERED (and at
least one exists), or some FAILED while every one is DELIVERED or FAILED. -/
def rollupSetsDelivered (l : List DeliveryAssignment) : Bool :=
  (l.all (fun x => x.status == AssignmentStatus.DELIVERED) && l.length != 0) ||
    (l.any (fun x => x.status == AssignmentStatus.FAILED) &&
      l.all (fun x =>
        x.status == AssignmentStatus.DELIVERED || x.status == AssignmentStatus.FAILED))

def applyConfirm (a : DeliveryAssignment) (adminId : ℕ) (data : ConfirmDeliveryData)
    (now : ℤ) (s : AllocState) : AllocState × DeliveryAssignment :=
  let upd := confirmUpdatedRow a adminId data now
  let newAssignments := confirmNewAssignments a upd s
  let allAssignments := newAssignments.filter (fun x => x.orderId == upd.orderId)
  let newOrders :=
    if rollupSetsDelivered allAssignments then
      s.orders.map (fun o =>
        if o.id == upd.orderId then { o with status := OrderStatus.DELIVERED } else o)
    else s.orders
  ({ s with assignments := newAssignments, orders := newOrders }, upd)

/-- `confirmDelivery(assignmentId, adminId, data)` from `allocation.service.ts`
(lines 373–497), with the current time `now` passed explicitly.  Checks: the
assignment exists; when `delivered` is true and `quantityDelivered` was given,
`0 ≤ quantityDelivered ≤ assignedQuantity`.  There is no check on the current
status of the assignment.  The performance-score side effect is wrapped in a
try/catch in the source and never alters the order or assignment tables, so
it is modelled separately (see `updatePerformanceScore`). -/
def confirmDelivery (assignmentId : ℕ) (adminId : ℕ) (data : ConfirmDeliveryData)
    (now : ℤ) (s : AllocState) : Except ApiError (AllocState × DeliveryAssignment) :=
  match findAssignment s assignmentId with
  | none => .error (createError "Delivery assignment not found" 404 "ASSIGNMENT_NOT_FOUND")
  | some assignment =>
    match data.quantityDelivered with
    | some q =>
      if data.delivered then
        if q < 0 then
          .error (createError "Quantity delivered cannot be negative" 400 "INVALID_QUANTITY")
        else if q > assignment.assignedQuantity then
          .error (createError "Quantity delivered cannot exceed assigned quantity"
            400 "INVALID_QUANTITY")
        else
          .ok (applyConfirm assignment adminId data now s)
      else
        .ok (applyConfirm assignment adminId data now s)
    | none => .ok (applyConfirm assignment adminId data now s)

/-- JavaScript `Math.round`: nearest integer, halves toward positive
infinity, i.e. `⌊x + 1/2⌋`. -/
def jsRound (q : ℚ) : ℤ :=
  ⌊q + 1/2⌋

/-- JavaScript `Math.floor` of the exact quotient of two integers (the
millisecond difference divided by the milliseconds in a day), which is floor
division `Int.fdiv`. -/
def jsFloorDiv (a b : ℤ) : ℤ :=
  Int.fdiv a b

/-- Milliseconds in one day, `1000 * 60 * 60 * 24`. -/
def msPerDay : ℤ := 86400000

/-- The on-time test inside `calculateOnTimeDeliveryScore`: the delivery is
DELIVERED, has a confirmation time, and
`Math.floor((confirmedAt − deliveryDate) / msPerDay) ≤ 1`. -/
def isOnTime (d : DeliveryAssignment) : Bool :=
  d.status == AssignmentStatus.DELIVERED &&
    match d.confirmedAt with
    | none => false
    | some c => decide (jsFloorDiv (c - d.deliveryDate) msPerDay ≤ 1)

/-- `calculateOnTimeDeliveryScore` from `performance.service.ts`
(lines 105–133): 0 with no confirmed deliveries, otherwise the rounded
percentage of on-time deliveries among all confirmed deliveries. -/
def calculateOnTimeDeliveryScore (deliveries : List DeliveryAssignment) : ℤ :=
  if deliveries.length = 0 then 0
  else
    let onTimeDeliveries := deliveries.filter isOnTime
    jsRound (((onTimeDeliveries.length : ℚ) / (deliveries.length : ℚ)) * 100)

/-- `calculateQuantityAccuracyScore` from `performance.service.ts`
(lines 139–163): averaged `min(100, 100·delivered/assigned)` over DELIVERED
assignments with a recorded `quantityDelivered`. -/
def calculateQuantityAccuracyScore (deliveries : List DeliveryAssignment) : ℤ :=
  if deliveries.length = 0 then 0
  else
    let deliveredAssignments := deliveries.filter (fun d =>
      d.status == AssignmentStatus.DELIVERED && d.quantityDelivered.isSome)
    if deliveredAssignments.length = 0 then 0
    else
      let totalAccuracy : ℚ := (deliveredAssignments.map (fun d =>
        min 100 ((d.quantityDelivered.getD 0 / d.assignedQuantity) * 100))).sum
      jsRound (totalAccuracy / (deliveredAssignments.length : ℚ))

/-- Numeric value of a quality result in `calculateQualityScore`. -/
def qualityPoints : Option QualityResult → ℚ
  | some QualityResult.PASS => 100
  | some QualityResult.PARTIAL => 50
  | some QualityResult.FAIL => 0
  | none => 0

/-- `calculateQualityScore` from `performance.service.ts` (lines 169–200):
averaged {PASS→100, PARTIAL→50, FAIL→0} over DELIVERED assignments with a
recorded `qualityResult`. -/
def calculateQualityScore (deliveries : List DeliveryAssignment) : ℤ :=
  if deliveries.length = 0 then 0
  else
    let deliveredAssignments := deliveries.filter (fun d =>
      d.status == AssignmentStatus.DELIVERED && d.qualityResult.isSome)
    if deliveredAssignments.length = 0 then 0
    else
      let totalQualityScore : ℚ :=
        (deliveredAssignments.map (fun d => qualityPoints d.qualityResult)).sum
      jsRound (totalQualityScore / (deliveredAssignments.length : ℚ))

/-- `calculateAvailabilitySubmissionScore` from `performance.service.ts`
(lines 206–215): rounded percentage of non-late submissions. -/
def calculateAvailabilitySubmissionScore (availabilityHistory : List WeeklyAvailability) : ℤ :=
  if availabilityHistory.length = 0 then 0
  else
    let onTimeSubmissions := availabilityHistory.filter (fun av => !av.isLate)
    jsRound (((onTimeSubmissions.length : ℚ) / (availabilityHistory.length : ℚ)) * 100)

/-- `determineTier` from `performance.service.ts` (lines 220–228), with the
`DEFAULT_TIER_THRESHOLDS` constants `PREFERRED = 85`, `STANDARD = 50`. -/
def determineTier (score : ℤ) : PerformanceTier :=
  if score ≥ 85 then PerformanceTier.PREFERRED
  else if score ≥ 50 then PerformanceTier.STANDARD
  else PerformanceTier.PROBATIONARY

/-- The four component scores (`PerformanceBreakdown`). -/
structure PerformanceBreakdown where
  onTimeDeliveryScore : ℤ
  quantityAccuracyScore : ℤ
  qualityScore : ℤ
  availabilitySubmissionScore : ℤ
  deriving DecidableEq, Repr

/-- Result of `calculatePerformanceScore` (`PerformanceData`). -/
structure PerformanceData where
  score : ℤ
  tier : PerformanceTier
  breakdown : PerformanceBreakdown
  deriving DecidableEq, Repr

/-- `DEFAULT_BASE_SCORE = 50`. -/
def DEFAULT_BASE_SCORE : ℚ := 50

/-- `calculatePerformanceScore(farmerId)` from `performance.service.ts`
(lines 38–99), as a function of the two query results it reads:
`confirmedDeliveries` (the farmer's assignments with status DELIVERED or
FAILED and a non-null `confirmedAt`, most recently confirmed first) and
`availabilityHistory` (the farmer's last 8 `WeeklyAvailability` rows, most
recent week first).  Weighted total
`round(50 + 0.3·onTime + 0.3·accuracy + 0.25·quality + 0.15·availability)`,
clamped to [0, 100]. -/
def calculatePerformanceScore (confirmedDeliveries : List DeliveryAssignment)
    (availabilityHistory : List WeeklyAvailability) : PerformanceData :=
  let onTimeDeliveryScore := calculateOnTimeDeliveryScore confirmedDeliveries
  let quantityAccuracyScore := calculateQuantityAccuracyScore confirmedDeliveries
  let qualityScore := calculateQualityScore confirmedDeliveries
  let availabilitySubmissionScore := calculateAvailabilitySubmissionScore availabilityHistory
  let totalScore := jsRound (DEFAULT_BASE_SCORE +
    (onTimeDeliveryScore : ℚ) * (3/10) +
    (quantityAccuracyScore : ℚ) * (3/10) +
    (qualityScore : ℚ) * (1/4) +
    (availabilitySubmissionScore : ℚ) * (3/20))
  let finalScore := max 0 (min 100 totalScore)
  { score := finalScore
    tier := determineTier finalScore
    breakdown :=
      { onTimeDeliveryScore := onTimeDeliveryScore
        quantityAccuracyScore := quantityAccuracyScore
        qualityScore := qualityScore
        availabilitySubmissionScore := availabilitySubmissionScore } }

/-- One `FarmerPerformanceHistory` row. -/
structure HistoryRow where
  previousScore : ℤ
  newScore : ℤ
  previousTier : PerformanceTier
  newTier : PerformanceTier
  reason : String
  deliveryAssignmentId : Option ℕ
  createdBy : Option ℕ
  deriving DecidableEq, Repr

/-- The slice of the database `updatePerformanceScore` touches for a single
farmer: the farmer's `DeliveryAssignment` rows and `WeeklyAvailability` rows
(inputs, most recent first as the service's queries order them), and the
stored `FarmerPerformance`, `FarmerPerformanceBreakdown` and
`FarmerPerformanceHistory` rows for that farmer. -/
structure PerfState where
  deliveries : List DeliveryAssignment
  availability : List WeeklyAvailability
  performance : Option (ℤ × PerformanceTier)
  breakdown : Option PerformanceBreakdown
  history : List HistoryRow
  deriving DecidableEq, Repr

/-- The `confirmedDeliveries` query of `calculatePerformanceScore`: status in
{DELIVERED, FAILED} and `confirmedAt` non-null. -/
def confirmedOf (s : PerfState) : List DeliveryAssignment :=
  s.deliveries.filter (fun d =>
    (d.status == AssignmentStatus.DELIVERED || d.status == AssignmentStatus.FAILED) &&
      d.confirmedAt.isSome)

/-- The `availabilityHistory` query: `take: 8` most recent rows. -/
def availabilityWindow (s : PerfState) : List WeeklyAvailability :=
  s.availability.take 8

/-- `updatePerformanceScore(farmerId, reason, deliveryAssignmentId, createdBy)`
from `performance.service.ts` (lines 234–301): recompute the score from the
farmer's records, upsert `FarmerPerformance` and
`FarmerPerformanceBreakdown`, and append a `FarmerPerformanceHistory` row
only when the score or the tier differs from the previously stored value
(defaulting to score 50 / tier PROBATIONARY when no record exists yet). -/
def updatePerformanceScore (reason : String) (deliveryAssignmentId : Option ℕ)
    (createdBy : Option ℕ) (s : PerfState) : PerfState :=
  let performanceData := calculatePerformanceScore (confirmedOf s) (availabilityWindow s)
  let previousScore := (s.performance.map (fun p => p.1)).getD 50
  let previousTier := (s.performance.map (fun p => p.2)).getD PerformanceTier.PROBATIONARY
  let newHistory :=
    if previousScore ≠ performanceData.score ∨ previousTier ≠ performanceData.tier then
      s.history ++ [{ previousScore := previousScore
                      newScore := performanceData.score
                      previousTier := previousTier
                      newTier := performanceData.tier
                      reason := reason
                      deliveryAssignmentId := deliveryAssignmentId
                      createdBy := createdBy }]
    else s.history
  { s with
    performance := some (performanceData.score, performanceData.tier)
    breakdown := some performanceData.breakdown
    history := newHistory }

/-! ## Definitions written from the specification text (for refinement claims) -/

/-- The on-time criterion as the specification words it: a DELIVERED
assignment with `confirmedAt − deliveryDate ≤ 1 day`. -/
def onTimeWithinOneDay (d : DeliveryAssignment) : Bool :=
  d.status == AssignmentStatus.DELIVERED &&
    match d.confirmedAt with
    | none => false
    | some c => decide (c - d.deliveryDate ≤ msPerDay)

/-- The on-time delivery score as the specification words it: the rounded
percentage, over all confirmed assignments, of those DELIVERED with
`confirmedAt − deliveryDate ≤ 1 day`; 0 with no confirmed assignments. -/
def onTimeDeliveryScoreSpec (deliveries : List DeliveryAssignment) : ℤ :=
  if deliveries.length = 0 then 0
  else jsRound (((deliveries.filter onTimeWithinOneDay).length : ℚ) /
    (deliveries.length : ℚ) * 100)

/-- The on-time criterion the code actually implements, stated without floor
division: a DELIVERED assignment with `confirmedAt − deliveryDate < 2 days`
(`Math.floor(diff / day) ≤ 1` is exactly `diff < 2·day`). -/
def onTimeWithinTwoDays (d : DeliveryAssignment) : Bool :=
  d.status == AssignmentStatus.DELIVERED &&
    match d.confirmedAt with
    | none => false
    | some c => decide (c - d.deliveryDate < 2 * msPerDay)

/-! ## Concrete fixtures used by witnesses and counterexamples -/

/-- A DELIVERED assignment confirmed 1.5 days (129 600 000 ms) after its
delivery date. -/
def dLate : DeliveryAssignment :=
  { id := 1, orderId := 1, farmerId := 1, assignedQuantity := 10, deliveryDate := 0,
    deliveryAddressId := 1, status := AssignmentStatus.DELIVERED,
    quantityDelivered := some 10, qualityResult := none, confirmationNotes := none,
    confirmedBy := some 9, confirmedAt := some 129600000 }

/-- A PENDING assignment (no confirmation recorded). -/
def dPending : DeliveryAssignment :=
  { id := 1, orderId := 1, farmerId := 1, assignedQuantity := 10, deliveryDate := 0,
    deliveryAddressId := 1, status := AssignmentStatus.PENDING,
    quantityDelivered := none, qualityResult := none, confirmationNotes := none,
    confirmedBy := none, confirmedAt := none }

/-- Performance state of a farmer with one still-PENDING assignment and no
availability submissions: zero *confirmed* deliveries. -/
def perfFresh : PerfState :=
  { deliveries := [dPending], availability := [], performance := none,
    breakdown := none, history := [] }

/-! ## Claims about performance scoring -/

/-- C3: a farmer with zero confirmed delivery assignments and zero weekly
availability submissions gets all four component scores 0, aggregate score
exactly 50 (= round(50 + 0)), and tier STANDARD. -/
theorem claim_C3 (s : PerfState) (hd : confirmedOf s = []) (ha : s.availability = []) :
    calculatePerformanceScore (confirmedOf s) (availabilityWindow s) =
      { score := 50, tier := PerformanceTier.STANDARD,
        breakdown := { onTimeDeliveryScore := 0, quantityAccuracyScore := 0,
                       qualityScore := 0, availabilitySubmissionScore := 0 } } := by
  rw [hd]
  unfold availabilityWindow
  rw [ha]
  simp only [calculatePerformanceScore, calculateOnTimeDeliveryScore,
    calculateQuantityAccuracyScore, calculateQualityScore,
    calculateAvailabilitySubmissionScore, jsRound, DEFAULT_BASE_SCORE, determineTier,
    List.take_nil, List.length_nil]
  norm_num

/-- Witness for C3: a farmer whose only assignment is PENDING and who never
submitted availability. -/
theorem claim_C3_witness :
    confirmedOf perfFresh = [] ∧ perfFresh.availability = [] ∧
      calculatePerformanceScore (confirmedOf perfFresh) (availabilityWindow perfFresh) =
        { score := 50, tier := PerformanceTier.STANDARD,
          breakdown := { onTimeDeliveryScore := 0, quantityAccuracyScore := 0,
                         qualityScore := 0, availabilitySubmissionScore := 0 } } :=
  ⟨rfl, rfl, claim_C3 perfFresh rfl rfl⟩

/-- C9: performance recomputation is deterministic and idempotent.
`calculatePerformanceScore` is a pure Lean function of the farmer's
confirmed-assignment and availability records, and running
`updatePerformanceScore` a second time on the resulting state (the input
records are untouched by the first run) reproduces exactly the same stored
score, tier and breakdown and appends no further history row: the state is
unchanged, whatever reason/assignment/admin the second call carries. -/
theorem claim_C9 (s : PerfState) (r₁ r₂ : String) (d₁ d₂ c₁ c₂ : Option ℕ) :
    updatePerformanceScore r₂ d₂ c₂ (updatePerformanceScore r₁ d₁ c₁ s) =
      updatePerformanceScore r₁ d₁ c₁ s := by
  simp [updatePerformanceScore, confirmedOf, availabilityWindow]

/-- C5 as stated is false: the code's grace period is
`Math.floor((confirmedAt − deliveryDate)/day) ≤ 1`, which admits anything
strictly below 2 days, not only differences ≤ 1 day.  A single DELIVERED
assignment confirmed 1.5 days after its delivery date scores 100 in the code
but 0 under the spec's `≤ 1 day` reading. -/
theorem claim_C5_counterexample :
    calculateOnTimeDeliveryScore [dLate] = 100 ∧ onTimeDeliveryScoreSpec [dLate] = 0 ∧
      calculateOnTimeDeliveryScore [dLate] ≠ onTimeDeliveryScoreSpec [dLate] := by
  refine ⟨?_, ?_, ?_⟩ <;>
    simp [calculateOnTimeDeliveryScore, onTimeDeliveryScoreSpec, isOnTime,
      onTimeWithinOneDay, dLate, jsFloorDiv, msPerDay, jsRound] <;>
    norm_num

/-- C5 amended: the on-time component equals the rounded percentage, over all
confirmed assignments, of those DELIVERED with
`confirmedAt − deliveryDate < 2 days` (the exact meaning of the code's
`Math.floor(diff/day) ≤ 1`; FAILED assignments count as not-on-time), and is
0 when there are no confirmed assignments at all. -/
theorem claim_C5 (deliveries : List DeliveryAssignment) :
    calculateOnTimeDeliveryScore deliveries =
      (if deliveries.length = 0 then 0
       else jsRound (((deliveries.filter onTimeWithinTwoDays).length : ℚ) /
         (deliveries.length : ℚ) * 100)) := by
  have hfilter : deliveries.filter isOnTime = deliveries.filter onTimeWithinTwoDays := by
    refine List.filter_congr ?_
    intro d _
    unfold isOnTime onTimeWithinTwoDays
    cases hc : d.confirmedAt with
    | none => rfl
    | some c =>
      have : (jsFloorDiv (c - d.deliveryDate) msPerDay ≤ 1) ↔
          (c - d.deliveryDate < 2 * msPerDay) := by
        unfold jsFloorDiv msPerDay
        rw [Int.fdiv_eq_ediv _ (by norm_num)]
        omega
      simp [this]
  unfold calculateOnTimeDeliveryScore
  rw [hfilter]

/-- An order of quantity 100 in ALLOCATION status. -/
def oAlloc : Order :=
  { id := 1, quantity := 100, status := OrderStatus.ALLOCATION,
    deliveryDate := 0, deliveryAddressId := 1 }

/-- The same order after delivery roll-up (status DELIVERED). -/
def oDeliv : Order :=
  { id := 1, quantity := 100, status := OrderStatus.DELIVERED,
    deliveryDate := 0, deliveryAddressId := 1 }

/-- A state whose one order (in ALLOCATION status) already carries one PENDING
assignment. -/
def stAllocated : AllocState :=
  { orders := [oAlloc], assignments := [dPending], activeFarmers := [1, 2], nextId := 2 }

/-- A state whose one order is DELIVERED and carries one DELIVERED
assignment: the normal end state of a fulfilled order. -/
def stDelivered : AllocState :=
  { orders := [oDeliv], assignments := [dLate], activeFarmers := [1, 2], nextId := 2 }

/-- A state whose one order (in ALLOCATION status) has no assignments yet. -/
def stEmpty : AllocState :=
  { orders := [oAlloc], assignments := [], activeFarmers := [1, 2], nextId := 0 }

/-! ## Claims about the allocation service -/

/-- C7 as stated is false: the status check precedes the already-allocated
check, so an order that already has an assignment but is no longer in
ALLOCATION status (here: a DELIVERED order, the normal end state) fails with
INVALID_ORDER_STATUS, not ALREADY_ALLOCATED. -/
theorem claim_C7_counterexample :
    createDeliveryAssignments 1 9 [⟨2, 5⟩] stDelivered =
      .error (createError "Order is not in ALLOCATION status" 400 "INVALID_ORDER_STATUS") ∧
    (assignmentsOfOrder stDelivered 1).length = 1 ∧
    "INVALID_ORDER_STATUS" ≠ "ALREADY_ALLOCATED" := by
  refine ⟨rfl, rfl, ?_⟩
  simp

/-- C7 amended: a `createDeliveryAssignments` call on an order that already
has one or more assignments always fails and creates nothing, regardless of
the quantities requested; the error code is ALREADY_ALLOCATED when the order
is (still) in ALLOCATION status and INVALID_ORDER_STATUS otherwise.  (An
`Except.error` result carries no new state: the transaction performed no
write.) -/
theorem claim_C7 (s : AllocState) (orderId adminId : ℕ) (data : List AllocationAssignment)
    (o : Order) (ho : findOrder s orderId = some o)
    (hne : assignmentsOfOrder s o.id ≠ []) :
    ∃ e, createDeliveryAssignments orderId adminId data s = .error e ∧
      e.code = (if o.status = OrderStatus.ALLOCATION then "ALREADY_ALLOCATED"
                else "INVALID_ORDER_STATUS") := by
  have hlen : (assignmentsOfOrder s o.id).length > 0 := List.length_pos.mpr hne
  unfold createDeliveryAssignments
  rw [ho]
  by_cases hst : o.status = OrderStatus.ALLOCATION
  · simp [hst, hlen, createError]
  · simp [hst, createError]

/-- Witness for C7 (amended): an ALLOCATION order with one existing PENDING
assignment rejects a fresh batch with ALREADY_ALLOCATED. -/
theorem claim_C7_witness :
    ∃ e, createDeliveryAssignments 1 9 [⟨2, 5⟩] stAllocated = .error e ∧
      e.code = (if oAlloc.status = OrderStatus.ALLOCATION then "ALREADY_ALLOCATED"
                else "INVALID_ORDER_STATUS") :=
  claim_C7 stAllocated 1 9 [⟨2, 5⟩] oAlloc rfl (by
    rw [show assignmentsOfOrder stAllocated oAlloc.id = [dPending] from rfl]
    exact List.cons_ne_nil _ _)

/-- C8: once an assignment is DELIVERED or FAILED, `updateAssignment` (for
any new quantity) and `deleteAssignment` both fail with
INVALID_ASSIGNMENT_STATUS (HTTP 400); the error is raised before any write,
so the assignment is neither modified nor deleted. -/
theorem claim_C8 (s : AllocState) (aid adm : ℕ) (q : ℚ) (a : DeliveryAssignment)
    (hfind : findAssignment s aid = some a)
    (hstatus : a.status = AssignmentStatus.DELIVERED ∨ a.status = AssignmentStatus.FAILED) :
    (∃ e, updateAssignment aid adm q s = .error e ∧
      e.code = "INVALID_ASSIGNMENT_STATUS" ∧ e.statusCode = 400) ∧
    (∃ e, deleteAssignment aid adm s = .error e ∧
      e.code = "INVALID_ASSIGNMENT_STATUS" ∧ e.statusCode = 400) := by
  have hne : a.status ≠ AssignmentStatus.PENDING := by
    rcases hstatus with h | h <;> simp [h]
  constructor
  · unfold updateAssignment
    rw [hfind]
    simp [hne, createError]
  · unfold deleteAssignment
    rw [hfind]
    simp [hne, createError]

/-- Witness for C8: a DELIVERED assignment rejects both update and delete. -/
theorem claim_C8_witness :
    (∃ e, updateAssignment 1 9 (7 : ℚ) stDelivered = .error e ∧
      e.code = "INVALID_ASSIGNMENT_STATUS" ∧ e.statusCode = 400) ∧
    (∃ e, deleteAssignment 1 9 stDelivered = .error e ∧
      e.code = "INVALID_ASSIGNMENT_STATUS" ∧ e.statusCode = 400) :=
  claim_C8 stDelivered 1 9 7 dLate rfl (Or.inl rfl)

/-- C10 as stated is false in one corner: when `delivered = false` but an
explicit `quantityDelivered` is supplied, the stored value is the supplied
one (the `??` fallback never fires), not null — and no range validation runs.
Concretely, confirming a PENDING assignment with
`{delivered: false, quantityDelivered: 7}` stores status FAILED and
quantityDelivered 7. -/
theorem claim_C10_counterexample :
    (confirmDelivery 1 9
        { delivered := false, quantityDelivered := some 7, qualityResult := none, notes := none }
        555 stAllocated).toOption.map (fun p => (p.2.status, p.2.quantityDelivered)) =
      some (AssignmentStatus.FAILED, some 7) ∧
    some (7 : ℚ) ≠ (none : Option ℚ) := by
  refine ⟨rfl, ?_⟩
  simp

/-- C10 amended: `confirmDelivery` sets the assignment's status to DELIVERED
when `delivered = true` and FAILED when `delivered = false`; when
`delivered = true` with `quantityDelivered` given it requires
`0 ≤ quantityDelivered ≤ assignedQuantity` (INVALID_QUANTITY otherwise); the
stored `quantityDelivered` is the explicit value whenever one is given (even
when `delivered = false`, unvalidated in that case), `assignedQuantity` when
`delivered = true` with no explicit value, and null when `delivered = false`
with no explicit value. -/
theorem claim_C10 (s : AllocState) (aid adm : ℕ) (data : ConfirmDeliveryData) (now : ℤ)
    (a : DeliveryAssignment) (hfind : findAssignment s aid = some a) :
    (data.delivered = true → ∀ q, data.quantityDelivered = some q →
        0 ≤ q → q ≤ a.assignedQuantity →
        ∃ s' upd, confirmDelivery aid adm data now s = .ok (s', upd) ∧
          upd.status = AssignmentStatus.DELIVERED ∧ upd.quantityDelivered = some q) ∧
    (data.delivered = true → data.quantityDelivered = none →
        ∃ s' upd, confirmDelivery aid adm data now s = .ok (s', upd) ∧
          upd.status = AssignmentStatus.DELIVERED ∧
          upd.quantityDelivered = some a.assignedQuantity) ∧
    (data.delivered = false → data.quantityDelivered = none →
        ∃ s' upd, confirmDelivery aid adm data now s = .ok (s', upd) ∧
          upd.status = AssignmentStatus.FAILED ∧ upd.quantityDelivered = none) ∧
    (data.delivered = false → ∀ q, data.quantityDelivered = some q →
        ∃ s' upd, confirmDelivery aid adm data now s = .ok (s', upd) ∧
          upd.status = AssignmentStatus.FAILED ∧ upd.quantityDelivered = some q) ∧
    (data.delivered = true → ∀ q, data.quantityDelivered = some q →
        (q < 0 ∨ q > a.assignedQuantity) →
        ∃ e, confirmDelivery aid adm data now s = .error e ∧ e.code = "INVALID_QUANTITY") := by
  obtain ⟨del, qd, qr, nt⟩ := data
  refine ⟨?_, ?_, ?_, ?_, ?_⟩
  · rintro hdel q hq h0 hle
    subst hdel
    cases hq
    have hres : confirmDelivery aid adm ⟨true, some q, qr, nt⟩ now s =
        .ok (applyConfirm a adm ⟨true, some q, qr, nt⟩ now s) := by
      unfold confirmDelivery
      rw [hfind]
      simp [not_lt.mpr h0, not_lt.mpr hle]
    exact ⟨_, _, hres, rfl, rfl⟩
  · rintro hdel hq
    subst hdel
    cases hq
    have hres : confirmDelivery aid adm ⟨true, none, qr, nt⟩ now s =
        .ok (applyConfirm a adm ⟨true, none, qr, nt⟩ now s) := by
      unfold confirmDelivery
      rw [hfind]
    exact ⟨_, _, hres, rfl, rfl⟩
  · rintro hdel hq
    subst hdel
    cases hq
    have hres : confirmDelivery aid adm ⟨false, none, qr, nt⟩ now s =
        .ok (applyConfirm a adm ⟨false, none, qr, nt⟩ now s) := by
      unfold confirmDelivery
      rw [hfind]
    exact ⟨_, _, hres, rfl, rfl⟩
  · rintro hdel q hq
    subst hdel
    cases hq
    have hres : confirmDelivery aid adm ⟨false, some q, qr, nt⟩ now s =
        .ok (applyConfirm a adm ⟨false, some q, qr, nt⟩ now s) := by
      unfold confirmDelivery
      rw [hfind]
      rfl
    exact ⟨_, _, hres, rfl, rfl⟩
  · rintro hdel q hq hbad
    subst hdel
    cases hq
    by_cases hneg : q < 0
    · refine ⟨createError "Quantity delivered cannot be negative" 400 "INVALID_QUANTITY",
        ?_, rfl⟩
      unfold confirmDelivery
      rw [hfind]
      simp [hneg]
    · have hgt : q > a.assignedQuantity := hbad.resolve_left hneg
      refine ⟨createError "Quantity delivered cannot exceed assigned quantity"
        400 "INVALID_QUANTITY", ?_, rfl⟩
      unfold confirmDelivery
      rw [hfind]
      simp [hneg, hgt]

/-- Witness for C10 (amended): confirming a PENDING assignment as delivered
with an in-range explicit quantity 5 succeeds, stores DELIVERED / 5. -/
theorem claim_C10_witness :
    ∃ s' upd, confirmDelivery 1 9
        { delivered := true, quantityDelivered := some 5, qualityResult := none, notes := none }
        555 stAllocated = .ok (s', upd) ∧
      upd.status = AssignmentStatus.DELIVERED ∧ upd.quantityDelivered = some 5 :=
  (claim_C10 stAllocated 1 9
      { delivered := true, quantityDelivered := some 5, qualityResult := none, notes := none }
      555 dPending rfl).1 rfl 5 rfl (by norm_num)
    (by rw [show dPending.assignedQuantity = 10 from rfl]; norm_num)

/-- C4 as stated is false: `confirmDelivery` never checks the assignment's
current status, so a second confirmation of an already-DELIVERED assignment
goes through and mutates it again — here flipping its status to FAILED. -/
theorem claim_C4_counterexample :
    (confirmDelivery 1 9
        { delivered := false, quantityDelivered := none, qualityResult := none, notes := none }
        999 stDelivered).toOption.map (fun p => p.1.assignments.map (fun x => x.status)) =
      some [AssignmentStatus.FAILED] ∧
    stDelivered.assignments.map (fun x => x.status) = [AssignmentStatus.DELIVERED] :=
  ⟨rfl, rfl⟩

/-- C4 amended: delivery confirmation is *not* once-only.  For an assignment
whose status is already DELIVERED or FAILED, a further `confirmDelivery`
call (with a valid quantity when one is supplied) succeeds and rewrites the
row: status follows the new `delivered` flag and `confirmedBy`/`confirmedAt`
are freshly stamped.  Only `updateAssignment`/`deleteAssignment` enforce
immutability after confirmation. -/
theorem claim_C4 (s : AllocState) (aid adm : ℕ) (data : ConfirmDeliveryData) (now : ℤ)
    (a : DeliveryAssignment) (hfind : findAssignment s aid = some a)
    (hconf : a.status = AssignmentStatus.DELIVERED ∨ a.status = AssignmentStatus.FAILED)
    (hvalid : ∀ q, data.quantityDelivered = some q → data.delivered = true →
      0 ≤ q ∧ q ≤ a.assignedQuantity) :
    ∃ s' upd, confirmDelivery aid adm data now s = .ok (s', upd) ∧
      upd.status = (if data.delivered then AssignmentStatus.DELIVERED
                    else AssignmentStatus.FAILED) ∧
      upd.confirmedBy = some adm ∧ upd.confirmedAt = some now := by
  obtain ⟨del, qd, qr, nt⟩ := data
  cases qd with
  | none =>
    have hres : confirmDelivery aid adm ⟨del, none, qr, nt⟩ now s =
        .ok (applyConfirm a adm ⟨del, none, qr, nt⟩ now s) := by
      unfold confirmDelivery
      rw [hfind]
    exact ⟨_, _, hres, by cases del <;> rfl, rfl, rfl⟩
  | some q =>
    cases del with
    | false =>
      have hres : confirmDelivery aid adm ⟨false, some q, qr, nt⟩ now s =
          .ok (applyConfirm a adm ⟨false, some q, qr, nt⟩ now s) := by
        unfold confirmDelivery
        rw [hfind]
        rfl
      exact ⟨_, _, hres, rfl, rfl, rfl⟩
    | true =>
      obtain ⟨h0, hle⟩ := hvalid q rfl rfl
      have hres : confirmDelivery aid adm ⟨true, some q, qr, nt⟩ now s =
          .ok (applyConfirm a adm ⟨true, some q, qr, nt⟩ now s) := by
        unfold confirmDelivery
        rw [hfind]
        simp [not_lt.mpr h0, not_lt.mpr hle]
      exact ⟨_, _, hres, rfl, rfl, rfl⟩

/-- Witness for C4 (amended): re-confirming the DELIVERED assignment of
`stDelivered` as failed succeeds and re-stamps it. -/
theorem claim_C4_witness :
    ∃ s' upd, confirmDelivery 1 9
        { delivered := false, quantityDelivered := none, qualityResult := none, notes := none }
        999 stDelivered = .ok (s', upd) ∧
      upd.status = (if (false : Bool) then AssignmentStatus.DELIVERED
                    else AssignmentStatus.FAILED) ∧
      upd.confirmedBy = some 9 ∧ upd.confirmedAt = some 999 :=
  claim_C4 stDelivered 1 9
    { delivered := false, quantityDelivered := none, qualityResult := none, notes := none }
    999 dLate rfl (Or.inl rfl) (fun q hq => by cases hq)

/-- Provided some member of the list has already left PENDING (here: the
just-confirmed row), the roll-up condition fires exactly when every
assignment of the order is DELIVERED or FAILED. -/
lemma rollupSetsDelivered_eq_all (l : List DeliveryAssignment) (u : DeliveryAssignment)
    (hu : u ∈ l) :
    rollupSetsDelivered l =
      l.all (fun x =>
        x.status == AssignmentStatus.DELIVERED || x.status == AssignmentStatus.FAILED) := by
  unfold rollupSetsDelivered
  cases hdone : l.all (fun x =>
      x.status == AssignmentStatus.DELIVERED || x.status == AssignmentStatus.FAILED) with
  | true =>
    cases hdel : l.all (fun x => x.status == AssignmentStatus.DELIVERED) with
    | true =>
      have hne : l.length ≠ 0 := by
        intro h
        rw [List.length_eq_zero] at h
        subst h
        exact absurd hu (List.not_mem_nil u)
      simp [hdel, hne]
    | false =>
      have hx : ∃ x ∈ l, ¬(x.status == AssignmentStatus.DELIVERED) = true := by
        by_contra hc
        push_neg at hc
        have : l.all (fun x => x.status == AssignmentStatus.DELIVERED) = true :=
          List.all_eq_true.mpr (fun x hxl => by
            have := hc x hxl
            simpa using this)
        rw [this] at hdel
        cases hdel
      obtain ⟨x, hxl, hpx⟩ := hx
      have hxdone := List.all_eq_true.mp hdone x hxl
      have hxfail : x.status = AssignmentStatus.FAILED := by
        cases hxs : x.status <;> simp [hxs] at hpx hxdone ⊢
      have hany : l.any (fun x => x.status == AssignmentStatus.FAILED) = true :=
        List.any_eq_true.mpr ⟨x, hxl, by simp [hxfail]⟩
      simp [hdel, hany, hdone]
  | false =>
    have hdel : l.all (fun x => x.status == AssignmentStatus.DELIVERED) = false := by
      cases h : l.all (fun x => x.status == AssignmentStatus.DELIVERED) with
      | true =>
        exfalso
        have hall : l.all (fun x =>
            x.status == AssignmentStatus.DELIVERED ||
              x.status == AssignmentStatus.FAILED) = true := by
          refine List.all_eq_true.mpr (fun x hx => ?_)
          have := List.all_eq_true.mp h x hx
          simp_all
        rw [hall] at hdone
        cases hdone
      | false => rfl
    simp [hdel, hdone]

/-- A `find?` by id over the order table after the roll-up write: the
status-rewriting map preserves ids, so the same row is found, rewritten. -/
lemma find?_rollup_write (orders : List Order) (oid : ℕ) :
    (orders.map (fun o =>
        if o.id == oid then { o with status := OrderStatus.DELIVERED } else o)).find?
      (fun o => o.id == oid) =
    (orders.find? (fun o => o.id == oid)).map (fun o =>
      if o.id == oid then { o with status := OrderStatus.DELIVERED } else o) := by
  rw [List.find?_map]
  have hcomp : ((fun o : Order => o.id == oid) ∘ (fun o : Order =>
      if o.id == oid then { o with status := OrderStatus.DELIVERED } else o)) =
      (fun o : Order => o.id == oid) := by
    funext o
    by_cases h : o.id = oid <;> simp [Function.comp, h]
  rw [hcomp]

/-- The write phase of `confirmDelivery` rolls the parent order's status up
to DELIVERED exactly when, afterwards, every assignment of that order is
DELIVERED or FAILED; otherwise the order row is untouched. -/
lemma applyConfirm_rollup (a : DeliveryAssignment) (adm : ℕ) (data : ConfirmDeliveryData)
    (now : ℤ) (s : AllocState) (ha : a ∈ s.assignments)
    (o : Order) (ho : findOrder s a.orderId = some o) :
    orderStatusOf (applyConfirm a adm data now s).1 a.orderId =
      (if (assignmentsOfOrder (applyConfirm a adm data now s).1 a.orderId).all
          (fun x => x.status == AssignmentStatus.DELIVERED ||
            x.status == AssignmentStatus.FAILED)
       then some OrderStatus.DELIVERED
       else orderStatusOf s a.orderId) := by
  have horderId : (confirmUpdatedRow a adm data now).orderId = a.orderId := rfl
  have humem : confirmUpdatedRow a adm data now ∈
      confirmNewAssignments a (confirmUpdatedRow a adm data now) s :=
    List.mem_map.mpr ⟨a, ha, by simp [confirmNewAssignments]⟩
  have hufilt : confirmUpdatedRow a adm data now ∈
      (confirmNewAssignments a (confirmUpdatedRow a adm data now) s).filter
        (fun x => x.orderId == (confirmUpdatedRow a adm data now).orderId) :=
    List.mem_filter.mpr ⟨humem, by simp⟩
  have hAO : assignmentsOfOrder (applyConfirm a adm data now s).1 a.orderId =
      (confirmNewAssignments a (confirmUpdatedRow a adm data now) s).filter
        (fun x => x.orderId == (confirmUpdatedRow a adm data now).orderId) := rfl
  have hO : (applyConfirm a adm data now s).1.orders =
      (if rollupSetsDelivered
          ((confirmNewAssignments a (confirmUpdatedRow a adm data now) s).filter
            (fun x => x.orderId == (confirmUpdatedRow a adm data now).orderId)) then
        s.orders.map (fun x =>
          if x.id == (confirmUpdatedRow a adm data now).orderId then
            { x with status := OrderStatus.DELIVERED } else x)
      else s.orders) := rfl
  rw [rollupSetsDelivered_eq_all _ (confirmUpdatedRow a adm data now) hufilt] at hO
  cases hdone : ((confirmNewAssignments a (confirmUpdatedRow a adm data now) s).filter
      (fun x => x.orderId == (confirmUpdatedRow a adm data now).orderId)).all
        (fun x => x.status == AssignmentStatus.DELIVERED ||
          x.status == AssignmentStatus.FAILED) with
  | true =>
    rw [hdone, if_pos rfl] at hO
    have hcond : (assignmentsOfOrder (applyConfirm a adm data now s).1 a.orderId).all
        (fun x => x.status == AssignmentStatus.DELIVERED ||
          x.status == AssignmentStatus.FAILED) = true := by
      rw [hAO]
      exact hdone
    rw [hcond, if_pos rfl]
    have hid : o.id = a.orderId := by
      have := List.find?_some ho
      simpa using this
    unfold orderStatusOf findOrder
    rw [hO, horderId, find?_rollup_write]
    unfold findOrder at ho
    rw [ho]
    simp [hid]
  | false =>
    rw [hdone, if_neg (by simp)] at hO
    have hcond : (assignmentsOfOrder (applyConfirm a adm data now s).1 a.orderId).all
        (fun x => x.status == AssignmentStatus.DELIVERED ||
          x.status == AssignmentStatus.FAILED) = false := by
      rw [hAO]
      exact hdone
    rw [hcond, if_neg (by simp)]
    unfold orderStatusOf findOrder
    rw [hO]

/-- C2: after a successful `confirmDelivery`, the parent order's status is
DELIVERED exactly when every one of the order's assignments (as they stand
after the call) is DELIVERED or FAILED — including the all-FAILED case — and
while any assignment is still PENDING the order's status field is exactly
what it was before the call. -/
theorem claim_C2 (s s' : AllocState) (aid adm : ℕ) (data : ConfirmDeliveryData)
    (now : ℤ) (upd : DeliveryAssignment) (o : Order)
    (hok : confirmDelivery aid adm data now s = .ok (s', upd))
    (ho : findOrder s upd.orderId = some o) :
    (orderStatusOf s' upd.orderId =
      (if (assignmentsOfOrder s' upd.orderId).all
          (fun x => x.status == AssignmentStatus.DELIVERED ||
            x.status == AssignmentStatus.FAILED)
       then some OrderStatus.DELIVERED
       else orderStatusOf s upd.orderId)) ∧
    ((assignmentsOfOrder s' upd.orderId).any
        (fun x => x.status == AssignmentStatus.PENDING) = true →
      orderStatusOf s' upd.orderId = orderStatusOf s upd.orderId) := by
  cases hfa : findAssignment s aid with
  | none =>
    unfold confirmDelivery at hok
    rw [hfa] at hok
    exact absurd hok (by simp)
  | some a =>
    have heq : (s', upd) = applyConfirm a adm data now s := by
      unfold confirmDelivery at hok
      simp only [hfa] at hok
      split at hok
      · split_ifs at hok
        all_goals
          first
          | exact (Except.ok.inj hok).symm
          | exact absurd hok (by simp)
      · exact (Except.ok.inj hok).symm
    have hmem : a ∈ s.assignments := List.mem_of_find?_eq_some hfa
    have hs' : s' = (applyConfirm a adm data now s).1 := congrArg Prod.fst heq
    have hupd : upd = (applyConfirm a adm data now s).2 := congrArg Prod.snd heq
    have hOid : (applyConfirm a adm data now s).2.orderId = a.orderId := rfl
    rw [hupd, hOid] at ho
    rw [hs', hupd, hOid]
    have hmain := applyConfirm_rollup a adm data now s hmem o ho
    refine ⟨hmain, fun hany => ?_⟩
    have hdone : (assignmentsOfOrder (applyConfirm a adm data now s).1 a.orderId).all
        (fun x => x.status == AssignmentStatus.DELIVERED ||
          x.status == AssignmentStatus.FAILED) = false := by
      obtain ⟨x, hx, hpx⟩ := List.any_eq_true.mp hany
      have hxp : x.status = AssignmentStatus.PENDING := by simpa using hpx
      refine List.all_eq_false.mpr ⟨x, hx, ?_⟩
      simp [hxp]
    rw [hmain, hdone]
    simp

/-- The row of `stAllocated` after confirming it delivered at time 555. -/
def confirmedRow : DeliveryAssignment :=
  { id := 1, orderId := 1, farmerId := 1, assignedQuantity := 10, deliveryDate := 0,
    deliveryAddressId := 1, status := AssignmentStatus.DELIVERED,
    quantityDelivered := some 10, qualityResult := none, confirmationNotes := none,
    confirmedBy := some 9, confirmedAt := some 555 }

/-- `stAllocated` after that confirmation: the single assignment is
DELIVERED, so the roll-up marks the order DELIVERED. -/
def confirmedState : AllocState :=
  { orders := [{ id := 1, quantity := 100, status := OrderStatus.DELIVERED,
                 deliveryDate := 0, deliveryAddressId := 1 }],
    assignments := [confirmedRow], activeFarmers := [1, 2], nextId := 2 }

/-- Witness for C2: confirming the only assignment of `stAllocated` as
delivered rolls the order up to DELIVERED. -/
theorem claim_C2_witness :
    (orderStatusOf confirmedState confirmedRow.orderId =
      (if (assignmentsOfOrder confirmedState confirmedRow.orderId).all
          (fun x => x.status == AssignmentStatus.DELIVERED ||
            x.status == AssignmentStatus.FAILED)
       then some OrderStatus.DELIVERED
       else orderStatusOf stAllocated confirmedRow.orderId)) ∧
    ((assignmentsOfOrder confirmedState confirmedRow.orderId).any
        (fun x => x.status == AssignmentStatus.PENDING) = true →
      orderStatusOf confirmedState confirmedRow.orderId =
        orderStatusOf stAllocated confirmedRow.orderId) :=
  claim_C2 stAllocated confirmedState 1 9
    { delivered := true, quantityDelivered := none, qualityResult := none, notes := none }
    555 confirmedRow oAlloc rfl rfl

/-- C6 as stated is false for `createDeliveryAssignments`: only the batch
*total* is validated (total > 0 and total ≤ order.quantity), not each row, so
the batch [(farmer 1, 5), (farmer 2, −2)] on an order of quantity 100
succeeds and creates a row with `assignedQuantity = −2 ≤ 0`.  (The HTTP
validator `allocationAssignmentSchema` does require positive integers per
row, but the service itself does not.) -/
theorem claim_C6_counterexample :
    (createDeliveryAssignments 1 9 [⟨1, 5⟩, ⟨2, -2⟩] stEmpty).toOption.map
        (fun r => r.created.map (fun a => a.assignedQuantity)) = some [5, -2] ∧
      ((-2 : ℚ) ≤ 0) := by
  constructor
  · simp only [createDeliveryAssignments, stEmpty, oAlloc, findOrder, assignmentsOfOrder]
    norm_num [mkAssignmentRow, List.range, List.range.loop, List.dedup, List.zip,
      Except.toOption]
  · norm_num

/-- C6 amended: `updateAssignment` enforces `assignedQuantity > 0` (a
non-positive new quantity on a PENDING assignment fails with
INVALID_QUANTITY before any write), but `createDeliveryAssignments`
validates only the batch total: every successful call has total requested
quantity > 0 and stores exactly the requested per-row quantities, so an
individual row with `assignedQuantity ≤ 0` is created whenever such a row is
part of a batch with positive total. -/
theorem claim_C6 :
    (∀ (s : AllocState) (aid adm : ℕ) (q : ℚ) (a : DeliveryAssignment),
      findAssignment s aid = some a → a.status = AssignmentStatus.PENDING → q ≤ 0 →
        ∃ e, updateAssignment aid adm q s = .error e ∧ e.code = "INVALID_QUANTITY") ∧
    (∀ (orderId adm : ℕ) (data : List AllocationAssignment) (s : AllocState)
        (r : CreateAllocationResult),
      createDeliveryAssignments orderId adm data s = .ok r →
        r.totalAssigned = (data.map (fun a => a.assignedQuantity)).sum ∧
        r.totalAssigned > 0 ∧
        r.created.map (fun a => a.assignedQuantity) =
          data.map (fun a => a.assignedQuantity)) := by
  constructor
  · intro s aid adm q a hfind hpend hq
    refine ⟨createError "Assigned quantity must be greater than 0" 400 "INVALID_QUANTITY",
      ?_, rfl⟩
    unfold updateAssignment
    rw [hfind]
    simp [hpend, hq]
  · intro orderId adm data s r hok
    unfold createDeliveryAssignments at hok
    cases hfo : findOrder s orderId with
    | none =>
      rw [hfo] at hok
      exact absurd hok (by simp)
    | some order =>
      simp only [hfo] at hok
      split_ifs at hok with h1 h2 h3 h4 h5
      have h := Except.ok.inj hok
      subst h
      refine ⟨rfl, not_le.mp h4, ?_⟩
      show (((List.range data.length).zip data).map
          (mkAssignmentRow order s.nextId)).map (fun a => a.assignedQuantity) =
        data.map (fun a => a.assignedQuantity)
      rw [List.map_map]
      rw [show (fun a => a.assignedQuantity) ∘ mkAssignmentRow order s.nextId =
        (fun a : AllocationAssignment => a.assignedQuantity) ∘ Prod.snd from rfl]
      rw [← List.map_map]
      rw [List.map_snd_zip _ _ (by simp)]

/-- The single assignment row created by the witness batch below. -/
def createdRow : DeliveryAssignment :=
  { id := 0, orderId := 1, farmerId := 1, assignedQuantity := 5, deliveryDate := 0,
    deliveryAddressId := 1, status := AssignmentStatus.PENDING, quantityDelivered := none,
    qualityResult := none, confirmationNotes := none, confirmedBy := none,
    confirmedAt := none }

/-- Witness for C6 (amended): a non-positive update on a PENDING assignment
is rejected with INVALID_QUANTITY, and a concrete successful batch has
positive total and stores the requested quantities. -/
theorem claim_C6_witness :
    (∃ e, updateAssignment 1 9 0 stAllocated = .error e ∧ e.code = "INVALID_QUANTITY") ∧
    (∃ r, createDeliveryAssignments 1 9 [⟨1, 5⟩] stEmpty = .ok r ∧
      r.totalAssigned = (([⟨1, 5⟩] : List AllocationAssignment).map
        (fun a => a.assignedQuantity)).sum ∧
      r.totalAssigned > 0 ∧
      r.created.map (fun a => a.assignedQuantity) =
        ([⟨1, 5⟩] : List AllocationAssignment).map (fun a => a.assignedQuantity)) := by
  constructor
  · exact claim_C6.1 stAllocated 1 9 0 dPending rfl rfl (by norm_num)
  · have hok : createDeliveryAssignments 1 9 [⟨1, 5⟩] stEmpty = .ok
        { state := { orders := [oAlloc], assignments := [createdRow],
                     activeFarmers := [1, 2], nextId := 1 },
          created := [createdRow], totalAssigned := 5, remainingQuantity := 95 } := by
      simp only [createDeliveryAssignments, stEmpty, oAlloc, findOrder, assignmentsOfOrder]
      norm_num [mkAssignmentRow, createdRow, oAlloc, List.range, List.range.loop,
        List.dedup, List.zip]
    exact ⟨_, hok, claim_C6.2 1 9 [⟨1, 5⟩] stEmpty _ hok⟩

/-- Total assigned quantity over all of one order's assignments. -/
def orderAssignedSum (s : AllocState) (orderId : ℕ) : ℚ :=
  ((assignmentsOfOrder s orderId).map (fun a => a.assignedQuantity)).sum

/-- The conservation invariant: for every order, the sum of
`assignedQuantity` over its assignments is at most the order's quantity. -/
def conservation (s : AllocState) : Prop :=
  ∀ o ∈ s.orders, orderAssignedSum s o.id ≤ o.quantity

/-- Every row built for the allocation batch carries the order's id. -/
lemma createdRows_orderId (order : Order) (baseId : ℕ) (data : List AllocationAssignment) :
    ∀ x ∈ ((List.range data.length).zip data).map (mkAssignmentRow order baseId),
      x.orderId = order.id := by
  intro x hx
  obtain ⟨p, _, rfl⟩ := List.mem_map.mp hx
  rfl

/-- The created rows carry exactly the requested quantities. -/
lemma createdRows_qty (order : Order) (baseId : ℕ) (data : List AllocationAssignment) :
    (((List.range data.length).zip data).map (mkAssignmentRow order baseId)).map
      (fun a => a.assignedQuantity) = data.map (fun a => a.assignedQuantity) := by
  rw [List.map_map]
  rw [show (fun a => a.assignedQuantity) ∘ mkAssignmentRow order baseId =
    (fun a : AllocationAssignment => a.assignedQuantity) ∘ Prod.snd from rfl]
  rw [← List.map_map]
  rw [List.map_snd_zip _ _ (by simp)]

/-- Summing one order's quantities after replacing the unique row with a
given id: the new sum is the sum over the *other* rows of that order plus
(number of rows bearing that id) times the new row's quantity. -/
lemma sum_map_replace (aid X : ℕ) (upd : DeliveryAssignment) (hX : upd.orderId = X)
    (l : List DeliveryAssignment) :
    (((l.map (fun x => if x.id == aid then upd else x)).filter
        (fun x => x.orderId == X)).map (fun x => x.assignedQuantity)).sum =
      ((l.filter (fun x => x.orderId == X && x.id != aid)).map
        (fun x => x.assignedQuantity)).sum +
        (l.countP (fun x => x.id == aid) : ℚ) * upd.assignedQuantity := by
  induction l with
  | nil => simp
  | cons x t ih =>
    by_cases hid : x.id = aid
    · simp only [List.map_cons, List.filter_cons, List.countP_cons, hid, beq_self_eq_true,
        if_true, hX, bne_self_eq_false, Bool.and_false, Bool.false_eq_true, if_false,
        List.sum_cons]
      rw [ih]
      push_cast
      ring
    · have hbeq : (x.id == aid) = false := by simp [hid]
      have hbne : (x.id != aid) = true := by simp [hid]
      by_cases hord : x.orderId = X
      · have hordb : (x.orderId == X) = true := by simp [hord]
        simp only [List.map_cons, List.filter_cons, List.countP_cons, hbeq,
          Bool.false_eq_true, if_false, hordb, hbne, Bool.and_self, if_true,
          List.sum_cons]
        rw [ih]
        push_cast
        ring
      · have hordb : (x.orderId == X) = false := by simp [hord]
        simp only [List.map_cons, List.filter_cons, List.countP_cons, hbeq,
          Bool.false_eq_true, if_false, hordb, Bool.false_and]
        rw [ih]
        push_cast
        ring

/-- Replacing the unique row with a given id does not affect the assignment
lists of other orders (the replaced row keeps its order). -/
lemma filter_map_replace_other (aid X : ℕ) (upd : DeliveryAssignment)
    (hX : upd.orderId ≠ X) (l : List DeliveryAssignment)
    (hl : ∀ x ∈ l, x.id = aid → x.orderId = upd.orderId) :
    (l.map (fun x => if x.id == aid then upd else x)).filter (fun x => x.orderId == X) =
      l.filter (fun x => x.orderId == X) := by
  induction l with
  | nil => rfl
  | cons x t ih =>
    have iht := ih (fun y hy hyid => hl y (List.mem_cons_of_mem _ hy) hyid)
    by_cases hid : x.id = aid
    · have hxo : x.orderId = upd.orderId := hl x (List.mem_cons_self _ _) hid
      have h1 : (upd.orderId == X) = false := by simp [hX]
      have h2 : (x.orderId == X) = false := by simp [hxo, hX]
      simp only [List.map_cons, List.filter_cons, hid, beq_self_eq_true, if_true, h1, h2,
        Bool.false_eq_true, if_false, iht]
    · have hbeq : (x.id == aid) = false := by simp [hid]
      simp only [List.map_cons, List.filter_cons, hbeq, Bool.false_eq_true, if_false, iht]

/-- In a table with pairwise-distinct ids, exactly one row bears the id of a
member row. -/
lemma countP_id_eq_one (aid : ℕ) (l : List DeliveryAssignment)
    (hnodup : (l.map (fun x => x.id)).Nodup)
    (a : DeliveryAssignment) (ha : a ∈ l) (haid : a.id = aid) :
    l.countP (fun x => x.id == aid) = 1 := by
  have hcount : (l.map (fun x => x.id)).count aid = l.countP (fun x => x.id == aid) := by
    rw [List.count, List.countP_map]
    rfl
  have hle : l.countP (fun x => x.id == aid) ≤ 1 := by
    rw [← hcount]
    exact List.nodup_iff_count_le_one.mp hnodup aid
  have hpos : 0 < l.countP (fun x => x.id == aid) :=
    List.countP_pos_iff.mpr ⟨a, ha, by simp [haid]⟩
  omega

/-- Rows of a table with pairwise-distinct ids are determined by their id. -/
lemma eq_of_id_eq {α : Type} {l : List α} {f : α → ℕ} (hnodup : (l.map f).Nodup)
    {x y : α} (hx : x ∈ l) (hy : y ∈ l) (hxy : f x = f y) : x = y :=
  List.inj_on_of_nodup_map hnodup hx hy hxy

/-- C1: the conservation invariant.  (a) On an existing ALLOCATION order with
no assignments yet — the state in which the over-allocation check is reached —
a batch whose total exceeds `order.quantity` fails with OVER_ALLOCATION
(HTTP 400); (b) on an existing PENDING assignment with a positive new
quantity, an update whose new quantity plus the other assignments' sum
exceeds the order's quantity fails with OVER_ALLOCATION; in both cases the
error is raised before any write, so existing assignments are untouched
(`Except.error` carries no new state).  (c)/(d) Successful
`createDeliveryAssignments` and `updateAssignment` calls preserve
`Σ assignedQuantity ≤ order.quantity` for every order (ids are unique in a
real database, hence the Nodup hypotheses). -/
theorem claim_C1 :
    (∀ (s : AllocState) (orderId adm : ℕ) (data : List AllocationAssignment) (o : Order),
      findOrder s orderId = some o → o.status = OrderStatus.ALLOCATION →
      assignmentsOfOrder s o.id = [] →
      (data.map (fun a => a.assignedQuantity)).sum > o.quantity →
        ∃ e, createDeliveryAssignments orderId adm data s = .error e ∧
          e.code = "OVER_ALLOCATION" ∧ e.statusCode = 400) ∧
    (∀ (s : AllocState) (aid adm : ℕ) (q : ℚ) (a : DeliveryAssignment) (o : Order),
      findAssignment s aid = some a → a.status = AssignmentStatus.PENDING → 0 < q →
      findOrder s a.orderId = some o →
      ((s.assignments.filter (fun x => x.orderId == a.orderId && x.id != aid)).map
        (fun x => x.assignedQuantity)).sum + q > o.quantity →
        ∃ e, updateAssignment aid adm q s = .error e ∧
          e.code = "OVER_ALLOCATION" ∧ e.statusCode = 400) ∧
    (∀ (s : AllocState) (orderId adm : ℕ) (data : List AllocationAssignment)
        (r : CreateAllocationResult),
      (s.orders.map (fun o => o.id)).Nodup → conservation s →
      createDeliveryAssignments orderId adm data s = .ok r → conservation r.state) ∧
    (∀ (s : AllocState) (aid adm : ℕ) (q : ℚ) (s' : AllocState) (u : DeliveryAssignment),
      (s.orders.map (fun o => o.id)).Nodup →
      (s.assignments.map (fun x => x.id)).Nodup → conservation s →
      updateAssignment aid adm q s = .ok (s', u) → conservation s') := by
  refine ⟨?_, ?_, ?_, ?_⟩
  · intro s orderId adm data o ho hst hempty hover
    refine ⟨createError "Total assigned quantity exceeds order quantity" 400
      "OVER_ALLOCATION", ?_, rfl, rfl⟩
    unfold createDeliveryAssignments
    rw [ho]
    simp [hst, hempty, hover]
  · intro s aid adm q a o hfind hpend hq hfo hover
    refine ⟨createError "Total assigned quantity would exceed order quantity" 400
      "OVER_ALLOCATION", ?_, rfl, rfl⟩
    unfold updateAssignment
    rw [hfind]
    simp [hpend, not_le.mpr hq, hfo, hover]
  · intro s orderId adm data r hnodup hcons hok
    unfold createDeliveryAssignments at hok
    cases hfo : findOrder s orderId with
    | none =>
      rw [hfo] at hok
      exact absurd hok (by simp)
    | some order =>
      simp only [hfo] at hok
      split_ifs at hok with h1 h2 h3 h4 h5
      have h := Except.ok.inj hok
      subst h
      intro o' ho'
      have ho'' : o' ∈ s.orders := ho'
      have horder_mem : order ∈ s.orders := List.mem_of_find?_eq_some hfo
      have hempty : s.assignments.filter (fun x => x.orderId == order.id) = [] := by
        have hlen : (assignmentsOfOrder s order.id).length = 0 := by omega
        exact List.length_eq_zero.mp hlen
      show (((s.assignments ++ ((List.range data.length).zip data).map
          (mkAssignmentRow order s.nextId)).filter
            (fun x => x.orderId == o'.id)).map (fun x => x.assignedQuantity)).sum ≤
        o'.quantity
      rw [List.filter_append, List.map_append, List.sum_append]
      by_cases hX : o'.id = order.id
      · have ho'eq : o' = order := eq_of_id_eq hnodup ho'' horder_mem hX
        have hquantity : o'.quantity = order.quantity := by rw [ho'eq]
        rw [hX, hempty, hquantity]
        have hcreated : (((List.range data.length).zip data).map
            (mkAssignmentRow order s.nextId)).filter (fun x => x.orderId == order.id) =
            ((List.range data.length).zip data).map (mkAssignmentRow order s.nextId) := by
          refine List.filter_eq_self.mpr (fun x hx => ?_)
          simp [createdRows_orderId order s.nextId data x hx]
        rw [hcreated, createdRows_qty]
        have h3' := not_lt.mp h3
        simpa using h3'
      · have hcreated : (((List.range data.length).zip data).map
            (mkAssignmentRow order s.nextId)).filter (fun x => x.orderId == o'.id) = [] := by
          refine List.filter_eq_nil_iff.mpr (fun x hx => ?_)
          simp [createdRows_orderId order s.nextId data x hx, Ne.symm hX]
        rw [hcreated]
        have hold := hcons o' ho''
        unfold orderAssignedSum assignmentsOfOrder at hold
        simpa using hold
  · intro s aid adm q s' u hnodupO hnodupA hcons hok
    unfold updateAssignment at hok
    cases hfa : findAssignment s aid with
    | none =>
      rw [hfa] at hok
      exact absurd hok (by simp)
    | some a =>
      simp only [hfa] at hok
      split_ifs at hok with h1 h2
      cases hfo : findOrder s a.orderId with
      | none =>
        simp only [hfo] at hok
        exact absurd hok (by simp)
      | some o =>
        simp only [hfo] at hok
        split_ifs at hok with h3
        have hpair := Except.ok.inj hok
        have hamem : a ∈ s.assignments := List.mem_of_find?_eq_some hfa
        have haid : a.id = aid := by simpa using List.find?_some hfa
        have homem : o ∈ s.orders := List.mem_of_find?_eq_some hfo
        have hoid : o.id = a.orderId := by simpa using List.find?_some hfo
        have hs' : s'.assignments = s.assignments.map
            (fun x => if x.id == aid then { a with assignedQuantity := q } else x) :=
          (congrArg (fun p => p.1.assignments) hpair).symm
        have hso : s'.orders = s.orders :=
          (congrArg (fun p => p.1.orders) hpair).symm
        intro o' ho'
        have ho'' : o' ∈ s.orders := by
          rw [← hso]
          exact ho'
        show orderAssignedSum s' o'.id ≤ o'.quantity
        unfold orderAssignedSum assignmentsOfOrder
        rw [hs']
        by_cases hX : o'.id = a.orderId
        · have ho'eq : o' = o := eq_of_id_eq hnodupO ho'' homem (by rw [hX, hoid])
          have hquantity : o'.quantity = o.quantity := by rw [ho'eq]
          rw [hX, hquantity]
          rw [sum_map_replace aid a.orderId { a with assignedQuantity := q } rfl]
          rw [countP_id_eq_one aid s.assignments hnodupA a hamem haid]
          have h3' := not_lt.mp h3
          have hq' : ({ a with assignedQuantity := q } :
            DeliveryAssignment).assignedQuantity = q := rfl
          rw [hq', Nat.cast_one, one_mul]
          exact h3'
        · have hl : ∀ x ∈ s.assignments, x.id = aid →
              x.orderId = ({ a with assignedQuantity := q } :
                DeliveryAssignment).orderId := by
            intro x hx hxid
            have hxa : x = a := eq_of_id_eq hnodupA hx hamem (by rw [hxid, haid])
            rw [hxa]
          rw [filter_map_replace_other aid o'.id { a with assignedQuantity := q }
            (by simpa using (Ne.symm hX)) s.assignments hl]
          have hold := hcons o' ho''
          unfold orderAssignedSum assignmentsOfOrder at hold
          exact hold

/-- The state after the witness allocation below. -/
def stAfterCreate : AllocState :=
  { orders := [oAlloc], assignments := [createdRow], activeFarmers := [1, 2], nextId := 1 }

/-- `dPending` after its quantity is updated to 20. -/
def updatedRow20 : DeliveryAssignment :=
  { id := 1, orderId := 1, farmerId := 1, assignedQuantity := 20, deliveryDate := 0,
    deliveryAddressId := 1, status := AssignmentStatus.PENDING, quantityDelivered := none,
    qualityResult := none, confirmationNotes := none, confirmedBy := none,
    confirmedAt := none }

/-- `stAllocated` after the witness update below. -/
def stAfterUpdate : AllocState :=
  { orders := [oAlloc], assignments := [updatedRow20], activeFarmers := [1, 2], nextId := 2 }

/-- Witness for C1: over-allocating create and update calls on concrete
states fail with OVER_ALLOCATION, and concrete successful create/update
calls leave the invariant intact. -/
theorem claim_C1_witness :
    (∃ e, createDeliveryAssignments 1 9 [⟨1, 150⟩] stEmpty = .error e ∧
      e.code = "OVER_ALLOCATION" ∧ e.statusCode = 400) ∧
    (∃ e, updateAssignment 1 9 150 stAllocated = .error e ∧
      e.code = "OVER_ALLOCATION" ∧ e.statusCode = 400) ∧
    conservation stAfterCreate ∧
    conservation stAfterUpdate := by
  have hconsE : conservation stEmpty := by
    intro o ho
    have : o = oAlloc := by simpa [stEmpty] using ho
    subst this
    norm_num [orderAssignedSum, assignmentsOfOrder, stEmpty, oAlloc]
  have hconsA : conservation stAllocated := by
    intro o ho
    have : o = oAlloc := by simpa [stAllocated] using ho
    subst this
    norm_num [orderAssignedSum, assignmentsOfOrder, stAllocated, oAlloc, dPending]
  refine ⟨?_, ?_, ?_, ?_⟩
  · exact claim_C1.1 stEmpty 1 9 [⟨1, 150⟩] oAlloc rfl rfl rfl (by norm_num [oAlloc])
  · exact claim_C1.2.1 stAllocated 1 9 150 dPending oAlloc rfl rfl (by norm_num) rfl
      (by norm_num [stAllocated, dPending, oAlloc])
  · have hok : createDeliveryAssignments 1 9 [⟨1, 5⟩] stEmpty = .ok
        { state := stAfterCreate, created := [createdRow],
          totalAssigned := 5, remainingQuantity := 95 } := by
      simp only [createDeliveryAssignments, stEmpty, oAlloc, findOrder, assignmentsOfOrder]
      norm_num [mkAssignmentRow, createdRow, oAlloc, stAfterCreate, List.range,
        List.range.loop, List.dedup, List.zip]
    exact claim_C1.2.2.1 stEmpty 1 9 [⟨1, 5⟩]
      { state := stAfterCreate, created := [createdRow],
        totalAssigned := 5, remainingQuantity := 95 }
      (by simp [stEmpty, oAlloc]) hconsE hok
  · have hok : updateAssignment 1 9 20 stAllocated = .ok (stAfterUpdate, updatedRow20) := by
      simp only [updateAssignment, stAllocated, dPending, oAlloc, findAssignment, findOrder]
      norm_num [stAfterUpdate, updatedRow20, oAlloc, dPending]
    exact claim_C1.2.2.2 stAllocated 1 9 20 stAfterUpdate updatedRow20
      (by simp [stAllocated, oAlloc]) (by simp [stAllocated, dPending]) hconsA hok
